import Mathlib

/-!
Shallow embedding of `src/handler.py` (the `check_stale_branches` AWS Lambda
handler) and verification of the frozen claims about it.

Modelling conventions, stated once:

* `GithubException` / `JIRAError` raised by the external clients are modelled
  as `Except`-style results returned by the environment (`Env`, `RepoData`).
* Python local variables `comparison` (line 131) and `issue` (line 146) are
  assigned only inside `try:` blocks whose `except:` clauses do not re-bind
  them and do not `continue`.  In Python such a variable keeps its previous
  value across loop iterations, and reading it before any assignment raises
  `NameError` (`UnboundLocalError`).  We model the pair as `Option`-valued
  slots of a `LoopState` threaded through the whole run, `none` meaning
  "still unbound"; reading an unbound slot yields `PyError.nameError`, which
  aborts the run exactly as the uncaught Python exception would.
* `defaultdict(int)` (line 101) preserves key insertion order, so
  `author_count` is an association list in which a new author is appended at
  the end (first-encounter order) and an existing author's count is bumped
  in place.
* Python's builtin `sorted` (line 167) is a stable sort; with
  `key=itemgetter(1), reverse=True` equal counts keep their original relative
  order.  `sortedTally` below is a stable insertion sort with exactly that
  extensional behaviour.
* Python's `in` operator on a *string* right-hand side is substring
  containment; on a tuple it is elementwise equality.  Line 80 stores the raw
  comma-separated SSM value (a string) while line 82 stores a tuple, so the
  membership test at line 150 has those two distinct semantics, captured by
  `statusInCompletion`.
* `re.search(r'feature/(?P<ticket>[a-zA-Z]+-[0-9]+).*', name)` (line 142):
  `re.search` returns the leftmost match.  Since `[a-zA-Z]+` can only be
  followed by `-` at the end of a maximal letter run, and the trailing `.*`
  always matches, the captured group at a viable position is the maximal
  ASCII-letter run, a hyphen, and the maximal ASCII-digit run.  `searchTicket`
  scans positions left to right accordingly.
* Report strings are kept structurally: a `StaleEntry` records exactly the
  fields interpolated at lines 156-158, a `RepoReport` the header data of
  line 164; `repo_report` is non-empty iff at least one entry was appended.
* The two Slack posts (lines 175-187) are modelled by `sentPayloads`,
  guarded by the truthiness test `if total_stale_branches:` of line 170.
-/

/-- A Jira issue as used by the handler: only `issue.fields.status.name`
(lines 150 and 158) is ever read. -/
structure Issue where
  statusName : String
deriving DecidableEq

/-- A GitHub branch as used by the handler: its `name` and
`branch.commit.author.login` (line 154), `none` when `branch.commit.author`
is falsy (then the author is the string `"unknown"`). -/
structure BranchInfo where
  name : String
  authorLogin : Option String
deriving DecidableEq

/-- Result of `repo.compare(base, head)` as used by the handler:
`comparison.behind_by` (line 136) and `comparison.status` (line 156). -/
structure Comparison where
  behindBy : Nat
  status : String
deriving DecidableEq

/-- One repository as seen through the GitHub client: whether
`repo.get_branch('develop')` succeeds (line 117), the list returned by
`repo.get_branches()` (line 123), and the `repo.compare` call (line 131),
which may raise (`Except.error`). -/
structure RepoData where
  hasDevelop : Bool
  branches : List BranchInfo
  compare : String → String → Except Unit Comparison

/-- The external world: `g.get_repo` (line 107, `none` models the
`GithubException` path) and `auth_jira.issue` (line 146, `Except.error`
models the `JIRAError` path). -/
structure Env where
  getRepo : String → Option RepoData
  jiraIssue : String → Except Unit Issue

/-- The completion-status configuration established at lines 79-82: either
the default tuple `('Resolved', 'Closed')` or the raw comma-separated string
taken verbatim from SSM. -/
inductive CompletionCfg where
  | defaults : CompletionCfg
  | configured : String → CompletionCfg
deriving DecidableEq

/-- Lines 79-82: the configured value is used only when the key is present
and truthy (non-empty); otherwise the default tuple. -/
def completionCfgOf (param : Option String) : CompletionCfg :=
  match param with
  | some s => if s = "" then .defaults else .configured s
  | none => .defaults

/-- Python substring containment: `needle in hay` for strings. -/
def pyStrIn (needle : List Char) : List Char → Bool
  | [] => needle.isPrefixOf []
  | c :: t => needle.isPrefixOf (c :: t) || pyStrIn needle t

/-- The membership test `issue.fields.status.name in
jira_statuses_for_task_completion` of line 150: elementwise equality against
the default tuple, Python substring containment against a configured raw
string. -/
def statusInCompletion (cfg : CompletionCfg) (s : String) : Bool :=
  match cfg with
  | .defaults => s = "Resolved" || s = "Closed"
  | .configured raw => pyStrIn s.toList raw.toList

/-- Splits a character list at commas, preserving empty groups, with the
semantics of Python `str.split(',')`. -/
def splitOnComma : List Char → List (List Char)
  | [] => [[]]
  | c :: t =>
    match splitOnComma t with
    | [] => [[]]
    | g :: gs => if c = ',' then [] :: g :: gs else (c :: g) :: gs

/-- Follows the spec's words (not the source): the completion-status set as
"the comma-separated list of status strings from configuration, treated as a
set of whole status labels".  Used only to compare against the source-derived
`statusInCompletion`. -/
def specCompletionStatusSet (raw : String) : List String :=
  (splitOnComma raw.toList).map (fun g => String.mk g)

/-- Python `str.startswith` (line 126). -/
def pyStartsWith (s pre : String) : Bool :=
  pre.toList.isPrefixOf s.toList

/-- Line 126: a branch survives the filter iff its name starts with
`feature/` or `hotfix/` (the code `continue`s when neither prefix matches). -/
def isCandidateBranch (name : String) : Bool :=
  pyStartsWith name "feature/" || pyStartsWith name "hotfix/"

/-- ASCII letter, the character class `[a-zA-Z]` of the regex at line 142. -/
def isTicketLetter (c : Char) : Bool :=
  ('a' ≤ c && c ≤ 'z') || ('A' ≤ c && c ≤ 'Z')

/-- ASCII digit, the character class `[0-9]` of the regex at line 142. -/
def isTicketDigit (c : Char) : Bool :=
  '0' ≤ c && c ≤ '9'

/-- Attempts to match the group `[a-zA-Z]+-[0-9]+` at the start of `cs`
(the text right after a `feature/` literal): the maximal letter run, a
hyphen, the maximal digit run, as produced by the greedy regex engine. -/
def matchTicketIdAt (cs : List Char) : Option (List Char) :=
  let ls := cs.takeWhile isTicketLetter
  if ls.isEmpty then none
  else
    match cs.dropWhile isTicketLetter with
    | '-' :: r2 =>
      let ds := r2.takeWhile isTicketDigit
      if ds.isEmpty then none else some (ls ++ '-' :: ds)
    | _ => none

/-- `re.search` over the pattern of line 142: scan start positions left to
right; at each position the regex requires the literal `feature/` followed by
the ticket-id group. -/
def searchTicket : List Char → Option (List Char)
  | [] => none
  | c :: cs =>
    if "feature/".toList.isPrefixOf (c :: cs) then
      match matchTicketIdAt ((c :: cs).drop 8) with
      | some t => some t
      | none => searchTicket cs
    else searchTicket cs

/-- Lines 141-144: the optional ticket reference extracted from a branch
name, uppercased with Python `str.upper()` (ASCII on the matched
characters). -/
def extractTicket (name : String) : Option String :=
  (searchTicket name.toList).map (fun t => String.mk (t.map Char.toUpper))

/-- One line of state of the `check_stale_branches` body that survives
across loop iterations: the two possibly-unbound locals, the author tally
(insertion-ordered) and `total_stale_branches`. -/
structure LoopState where
  comparisonVar : Option Comparison
  issueVar : Option Issue
  authorCount : List (String × Nat)
  total : Nat
deriving DecidableEq

/-- State at function entry (lines 99-101): counters zero, tally empty, both
locals unbound. -/
def initState : LoopState :=
  { comparisonVar := none, issueVar := none, authorCount := [], total := 0 }

/-- The uncaught Python exception that aborts the handler: reading a local
variable before any assignment (`NameError` / `UnboundLocalError`). -/
inductive PyError where
  | nameError : PyError
deriving DecidableEq

/-- One stale-branch record, the fields interpolated into `repo_report` at
lines 156-159. -/
structure StaleEntry where
  branchName : String
  comparisonStatus : String
  author : String
  ticketStatus : Option String
deriving DecidableEq

/-- Line 154: `branch.commit.author.login if branch.commit.author else
'unknown'`. -/
def pyAuthor (b : BranchInfo) : String :=
  b.authorLogin.getD "unknown"

/-- `author_count[author] += 1` on a `defaultdict(int)` (line 155): bump in
place if present, else append with count 1 (dict insertion order). -/
def bumpAuthor : List (String × Nat) → String → List (String × Nat)
  | [], a => [(a, 1)]
  | (k, v) :: rest, a =>
    if k = a then (k, v + 1) :: rest else (k, v) :: bumpAuthor rest a

/-- Lines 154-161: record the branch as stale — bump the author tally,
append the report entry, increment `total_stale_branches`. -/
def includeBranchStep (st : LoopState) (b : BranchInfo) (c : Comparison)
    (ts : Option String) : Except PyError (LoopState × Option StaleEntry) :=
  let author := pyAuthor b
  .ok ({ st with
          authorCount := bumpAuthor st.authorCount author,
          total := st.total + 1 },
       some { branchName := b.name, comparisonStatus := c.status,
              author := author, ticketStatus := ts })

/-- Lines 145-158, the `if result:` block once a ticket reference `t` was
extracted: the Jira lookup (on `JIRAError` the handler only logs, leaving the
local `issue` bound to whatever it was before, possibly nothing), the read of
`issue` at line 150, and the completion-set gate. -/
def ticketGate (cfg : CompletionCfg) (env : Env) (st1 : LoopState)
    (branch : BranchInfo) (comparison : Comparison) (t : String) :
    Except PyError (LoopState × Option StaleEntry) :=
  let issueOpt : Option Issue :=
    match env.jiraIssue t with
    | .ok iss => some iss
    | .error _ => st1.issueVar
  let st2 : LoopState := { st1 with issueVar := issueOpt }
  -- line 150 reads `issue`
  match issueOpt with
  | none => .error .nameError
  | some issue =>
    if statusInCompletion cfg issue.statusName then
      includeBranchStep st2 branch comparison (some issue.statusName)
    else
      -- lines 150-152: open ticket, the branch may still be needed
      .ok (st2, none)

/-- Lines 124-161, the body of the inner `for branch in branches:` loop, for
one branch.  Returns the updated state and the stale entry appended to
`repo_report` (if any), or the uncaught `NameError`. -/
def processBranch (cfg : CompletionCfg) (env : Env) (mainBranch : String)
    (repo : RepoData) (st : LoopState) (branch : BranchInfo) :
    Except PyError (LoopState × Option StaleEntry) :=
  if isCandidateBranch branch.name then
    -- lines 130-134: the compare call; on exception the handler only logs,
    -- leaving `comparison` bound to whatever it was before (if anything)
    let comparisonOpt : Option Comparison :=
      match repo.compare mainBranch branch.name with
      | .ok c => some c
      | .error _ => st.comparisonVar
    let st1 : LoopState := { st with comparisonVar := comparisonOpt }
    -- line 136 reads `comparison`
    match comparisonOpt with
    | none => .error .nameError
    | some comparison =>
      if comparison.behindBy = 0 then .ok (st1, none)
      else
        match extractTicket branch.name with
        | some t => ticketGate cfg env st1 branch comparison t
        | none => includeBranchStep st1 branch comparison none
  else
    -- lines 126-127: neither feature/ nor hotfix/ prefixed
    .ok (st, none)

/-- The inner loop over `repo.get_branches()`, collecting the stale entries
of one repository in order. -/
def processBranches (cfg : CompletionCfg) (env : Env) (mainBranch : String)
    (repo : RepoData) : LoopState → List BranchInfo →
    Except PyError (LoopState × List StaleEntry)
  | st, [] => .ok (st, [])
  | st, b :: bs =>
    match processBranch cfg env mainBranch repo st b with
    | .error e => .error e
    | .ok (st1, oe) =>
      match processBranches cfg env mainBranch repo st1 bs with
      | .error e => .error e
      | .ok (st2, es) => .ok (st2, oe.toList ++ es)

/-- Lines 114-121: confirm the main develop branch.  `main_develop_branch`
starts as `develop`; if `repo.get_branch('develop')` raises, it is set to
`master` — and the `except` block then executes `continue`, skipping the
repository.  The Bool records that `continue`. -/
def resolveMainBranch (repo : RepoData) : String × Bool :=
  if repo.hasDevelop then ("develop", false) else ("master", true)

/-- The per-repository report block appended to `general_report` at
line 164 when `repo_report` is non-empty. -/
structure RepoReport where
  repoName : String
  mainBranch : String
  entries : List StaleEntry
deriving DecidableEq

/-- Lines 103-164, the body of the outer `for repo_name in ...` loop for one
repository: locate the repo (skip on `GithubException`), resolve the main
develop branch (lines 114-121, with the `continue` on fallback), loop over
the branches, and append a report block iff `repo_report` is non-empty. -/
def processRepo (cfg : CompletionCfg) (env : Env) (st : LoopState)
    (repoName : String) : Except PyError (LoopState × Option RepoReport) :=
  match env.getRepo repoName with
  | none => .ok (st, none)
  | some repo =>
    let mb := resolveMainBranch repo
    if mb.2 then .ok (st, none)
    else
      match processBranches cfg env mb.1 repo st repo.branches with
      | .error e => .error e
      | .ok (st1, entries) =>
        .ok (st1,
             if entries.isEmpty then none
             else some { repoName := repoName, mainBranch := mb.1,
                         entries := entries })

/-- The outer loop over the configured repository names, concatenating the
non-empty repository reports in input order (`general_report`). -/
def processRepos (cfg : CompletionCfg) (env : Env) :
    LoopState → List String → Except PyError (LoopState × List RepoReport)
  | st, [] => .ok (st, [])
  | st, n :: ns =>
    match processRepo cfg env st n with
    | .error e => .error e
    | .ok (st1, rep) =>
      match processRepos cfg env st1 ns with
      | .error e => .error e
      | .ok (st2, reps) => .ok (st2, rep.toList ++ reps)

/-- The aggregate outcome of a completed run: `total_stale_branches`, the
author tally in first-encounter order, and `general_report`. -/
structure RunResult where
  total : Nat
  authorCount : List (String × Nat)
  generalReport : List RepoReport
deriving DecidableEq

/-- `check_stale_branches` (lines 71-164), with configuration and external
services abstracted into `cfg`, `repoNames` (the split
`github_repository_names`) and `env`. -/
def checkStaleBranches (cfg : CompletionCfg) (repoNames : List String)
    (env : Env) : Except PyError RunResult :=
  match processRepos cfg env initState repoNames with
  | .error e => .error e
  | .ok (st, reports) =>
    .ok { total := st.total, authorCount := st.authorCount,
          generalReport := reports }

/-- Stable insertion of one tally entry into a descending-by-count list: the
new entry goes after every earlier entry with a strictly greater count and
before the first entry with a smaller-or-equal count. -/
def tallyInsert (a : String × Nat) : List (String × Nat) → List (String × Nat)
  | [] => [a]
  | y :: ys => if a.2 < y.2 then y :: tallyInsert a ys else a :: y :: ys

/-- Line 167: `sorted(author_count.items(), key=operator.itemgetter(1),
reverse=True)` — a stable sort by descending count (Python's `sorted` is
stable, and `reverse=True` keeps ties in original order). -/
def sortedTally : List (String × Nat) → List (String × Nat)
  | [] => []
  | a :: rest => tallyInsert a (sortedTally rest)

/-- The two Slack requests of the handler. -/
inductive Payload where
  | overview : Payload
  | details : Payload
deriving DecidableEq

/-- Lines 170-187: both Slack posts (the overview message and the details
file upload) happen iff `total_stale_branches` is truthy (non-zero). -/
def sentPayloads (res : RunResult) : List Payload :=
  if res.total ≠ 0 then [.overview, .details] else []

/-- Sum of the per-author counts of a tally. -/
def sumCounts (l : List (String × Nat)) : Nat :=
  (l.map Prod.snd).sum

/-- Descending order on tally entries, by count. -/
def descByCount (a b : String × Nat) : Prop :=
  b.2 ≤ a.2

deriving instance DecidableEq for Except

/-- A repository that has a `master` branch but no `develop` branch, with one
feature branch that is 5 commits behind; its `compare` answers for any base,
`master` included. -/
def repoNoDevelop : RepoData :=
  { hasDevelop := false,
    branches := [{ name := "feature/x", authorLogin := some "alice" }],
    compare := fun _ _ => .ok { behindBy := 5, status := "behind" } }

/-- The same repository with a `develop` branch present. -/
def repoWithDevelop : RepoData :=
  { hasDevelop := true,
    branches := [{ name := "feature/x", authorLogin := some "alice" }],
    compare := fun _ _ => .ok { behindBy := 5, status := "behind" } }

/-- World containing only `repoNoDevelop`; Jira is never consulted. -/
def envNoDevelop : Env :=
  { getRepo := fun _ => some repoNoDevelop,
    jiraIssue := fun _ => .error () }

/-- World containing only `repoWithDevelop`. -/
def envWithDevelop : Env :=
  { getRepo := fun _ => some repoWithDevelop,
    jiraIssue := fun _ => .error () }

/-- The single stale entry the handler reports for `repoWithDevelop`. -/
def entryWithDevelop : StaleEntry :=
  { branchName := "feature/x", comparisonStatus := "behind",
    author := "alice", ticketStatus := none }

/-- The aggregate the handler produces for `envWithDevelop`. -/
def resWithDevelop : RunResult :=
  { total := 1, authorCount := [("alice", 1)],
    generalReport := [{ repoName := "r", mainBranch := "develop",
                        entries := [entryWithDevelop] }] }

/-- World whose very first candidate branch carries a ticket reference whose
Jira lookup fails: the local `issue` is read while still unbound. -/
def envTicketLookupFails : Env :=
  { getRepo := fun _ => some
      { hasDevelop := true,
        branches := [{ name := "feature/ABC-1", authorLogin := some "alice" }],
        compare := fun _ _ => .ok { behindBy := 1, status := "behind" } },
    jiraIssue := fun _ => .error () }

/-- World with two behind feature branches: the first one's ticket `AAA-1`
resolves to the open status `Open`, the second one's ticket `BBB-2` is
unknown to Jira. -/
def envStaleIssueLeak : Env :=
  { getRepo := fun _ => some
      { hasDevelop := true,
        branches := [{ name := "feature/AAA-1", authorLogin := some "a" },
                     { name := "feature/BBB-2", authorLogin := some "b" }],
        compare := fun _ _ => .ok { behindBy := 1, status := "behind" } },
    jiraIssue := fun t =>
      if t = "AAA-1" then .ok { statusName := "Open" } else .error () }

/-- World whose very first candidate branch's `repo.compare` call raises:
the local `comparison` is read while still unbound. -/
def envCompareFails : Env :=
  { getRepo := fun _ => some
      { hasDevelop := true,
        branches := [{ name := "feature/x", authorLogin := some "a" }],
        compare := fun _ _ => .error () },
    jiraIssue := fun _ => .error () }

/-- World with two candidate branches: comparing the first succeeds (5
behind), comparing the second raises. -/
def envStaleComparisonLeak : Env :=
  { getRepo := fun _ => some
      { hasDevelop := true,
        branches := [{ name := "feature/old", authorLogin := some "a" },
                     { name := "feature/b", authorLogin := some "a" }],
        compare := fun _ n =>
          if n = "feature/old" then .ok { behindBy := 5, status := "behind" }
          else .error () },
    jiraIssue := fun _ => .error () }

/-- Stale entry reported for `feature/old` in `envStaleComparisonLeak`. -/
def entryStaleOld : StaleEntry :=
  { branchName := "feature/old", comparisonStatus := "behind",
    author := "a", ticketStatus := none }

/-- Stale entry reported for `feature/b` in `envStaleComparisonLeak`: its own
comparison raised, yet it is reported with the previous branch's comparison
data. -/
def entryStaleB : StaleEntry :=
  { branchName := "feature/b", comparisonStatus := "behind",
    author := "a", ticketStatus := none }

/-- The aggregate the handler produces for `envStaleComparisonLeak`. -/
def resStaleComparison : RunResult :=
  { total := 2, authorCount := [("a", 2)],
    generalReport := [{ repoName := "r", mainBranch := "develop",
                        entries := [entryStaleOld, entryStaleB] }] }

/-- World with four ticketless behind branches by three authors (alice twice,
bob once, carol once), giving the tally a tie between bob and carol. -/
def envTally : Env :=
  { getRepo := fun _ => some
      { hasDevelop := true,
        branches := [{ name := "feature/a1", authorLogin := some "alice" },
                     { name := "feature/b1", authorLogin := some "bob" },
                     { name := "feature/c1", authorLogin := some "carol" },
                     { name := "feature/a2", authorLogin := some "alice" }],
        compare := fun _ _ => .ok { behindBy := 3, status := "diverged" } },
    jiraIssue := fun _ => .error () }

/-- The aggregate the handler produces for `envTally`. -/
def resTally : RunResult :=
  { total := 4, authorCount := [("alice", 2), ("bob", 1), ("carol", 1)],
    generalReport :=
      [{ repoName := "r", mainBranch := "develop",
         entries :=
           [{ branchName := "feature/a1", comparisonStatus := "diverged",
              author := "alice", ticketStatus := none },
            { branchName := "feature/b1", comparisonStatus := "diverged",
              author := "bob", ticketStatus := none },
            { branchName := "feature/c1", comparisonStatus := "diverged",
              author := "carol", ticketStatus := none },
            { branchName := "feature/a2", comparisonStatus := "diverged",
              author := "alice", ticketStatus := none }] }] }

/-- A repository holding one behind feature branch `feature/ABC-1` whose
ticket resolves. -/
def repoProtect : RepoData :=
  { hasDevelop := true,
    branches := [{ name := "feature/ABC-1", authorLogin := some "a" }],
    compare := fun _ _ => .ok { behindBy := 2, status := "behind" } }

/-- World where ticket `ABC-1` resolves to the open status `In Progress`. -/
def envProtect : Env :=
  { getRepo := fun _ => some repoProtect,
    jiraIssue := fun t =>
      if t = "ABC-1" then .ok { statusName := "In Progress" } else .error () }

/-- A repository whose single feature branch compares as 0 behind. -/
def repoUpToDate : RepoData :=
  { hasDevelop := true,
    branches := [{ name := "feature/done", authorLogin := some "a" }],
    compare := fun _ _ => .ok { behindBy := 0, status := "ahead" } }

/-- World containing only `repoUpToDate`. -/
def envUpToDate : Env :=
  { getRepo := fun _ => some repoUpToDate,
    jiraIssue := fun _ => .error () }

/-- Decidable test used for the tally-stability statements: does a tally
entry carry count `c`. -/
def countIs (c : Nat) (p : String × Nat) : Bool :=
  p.2 == c

/-! Helper lemmas. -/

theorem sumCounts_bump (l : List (String × Nat)) (a : String) :
    sumCounts (bumpAuthor l a) = sumCounts l + 1 := by
  induction l with
  | nil => simp [bumpAuthor, sumCounts]
  | cons p rest ih =>
    obtain ⟨k, v⟩ := p
    by_cases hk : k = a
    · simp [bumpAuthor, hk, sumCounts]
      omega
    · simp [bumpAuthor, hk, sumCounts] at ih ⊢
      omega

theorem ticketGate_inv (cfg : CompletionCfg) (env : Env) (st1 : LoopState)
    (b : BranchInfo) (c : Comparison) (t : String) (st' : LoopState)
    (oe : Option StaleEntry)
    (h : ticketGate cfg env st1 b c t = .ok (st', oe))
    (hi : sumCounts st1.authorCount = st1.total) :
    sumCounts st'.authorCount = st'.total := by
  unfold ticketGate at h
  simp only [includeBranchStep] at h
  repeat' (first | (split at h) | (dsimp only at h))
  all_goals first
    | exact Except.noConfusion h
    | (injection h with h1;
       injection h1 with h2 h3; subst h2; dsimp only;
       first
         | exact hi
         | (rw [sumCounts_bump, hi]))

theorem processBranch_inv (cfg : CompletionCfg) (env : Env) (mb : String)
    (repo : RepoData) (st : LoopState) (b : BranchInfo) (st' : LoopState)
    (oe : Option StaleEntry)
    (h : processBranch cfg env mb repo st b = .ok (st', oe))
    (hi : sumCounts st.authorCount = st.total) :
    sumCounts st'.authorCount = st'.total := by
  unfold processBranch at h
  split at h
  · repeat' (first | (split at h) | (dsimp only at h))
    all_goals try simp only [includeBranchStep] at h
    all_goals first
      | exact Except.noConfusion h
      | (exact ticketGate_inv _ _ _ _ _ _ _ _ h hi)
      | (injection h with h1;
         injection h1 with h2 h3; subst h2; dsimp only;
         first
           | exact hi
           | (rw [sumCounts_bump, hi]))
  · injection h with h1
    injection h1 with h2 h3
    subst h2
    exact hi

theorem processBranches_inv (cfg : CompletionCfg) (env : Env) (mb : String)
    (repo : RepoData) (bs : List BranchInfo) (st : LoopState)
    (st' : LoopState) (es : List StaleEntry)
    (h : processBranches cfg env mb repo st bs = .ok (st', es))
    (hi : sumCounts st.authorCount = st.total) :
    sumCounts st'.authorCount = st'.total := by
  induction bs generalizing st es with
  | nil =>
    unfold processBranches at h
    injection h with h1
    injection h1 with h2 h3
    subst h2
    exact hi
  | cons b rest ih =>
    unfold processBranches at h
    cases hb : processBranch cfg env mb repo st b with
    | error e => simp only [hb] at h; exact Except.noConfusion h
    | ok p =>
      obtain ⟨st1, oe⟩ := p
      simp only [hb] at h
      cases hr : processBranches cfg env mb repo st1 rest with
      | error e => simp only [hr] at h; exact Except.noConfusion h
      | ok q =>
        obtain ⟨st2, es2⟩ := q
        simp only [hr] at h
        injection h with h1
        injection h1 with h2 h3
        subst h2
        exact ih st1 es2 hr (processBranch_inv cfg env mb repo st b st1 oe hb hi)

theorem processRepo_inv (cfg : CompletionCfg) (env : Env) (st : LoopState)
    (n : String) (st' : LoopState) (rep : Option RepoReport)
    (h : processRepo cfg env st n = .ok (st', rep))
    (hi : sumCounts st.authorCount = st.total) :
    sumCounts st'.authorCount = st'.total := by
  unfold processRepo at h
  cases hg : env.getRepo n with
  | none =>
    simp only [hg] at h
    injection h with h1
    injection h1 with h2 h3
    subst h2
    exact hi
  | some repo =>
    simp only [hg] at h
    split at h
    · injection h with h1
      injection h1 with h2 h3
      subst h2
      exact hi
    · cases hb : processBranches cfg env (resolveMainBranch repo).1 repo st
          repo.branches with
      | error e => simp only [hb] at h; exact Except.noConfusion h
      | ok p =>
        obtain ⟨st1, es⟩ := p
        simp only [hb] at h
        injection h with h1
        injection h1 with h2 h3
        subst h2
        exact processBranches_inv cfg env _ repo repo.branches st st1 es hb hi

theorem processRepos_inv (cfg : CompletionCfg) (env : Env) (ns : List String)
    (st : LoopState) (st' : LoopState) (reps : List RepoReport)
    (h : processRepos cfg env st ns = .ok (st', reps))
    (hi : sumCounts st.authorCount = st.total) :
    sumCounts st'.authorCount = st'.total := by
  induction ns generalizing st reps with
  | nil =>
    unfold processRepos at h
    injection h with h1
    injection h1 with h2 h3
    subst h2
    exact hi
  | cons n rest ih =>
    unfold processRepos at h
    cases hr : processRepo cfg env st n with
    | error e => simp only [hr] at h; exact Except.noConfusion h
    | ok p =>
      obtain ⟨st1, rep⟩ := p
      simp only [hr] at h
      cases hrs : processRepos cfg env st1 rest with
      | error e => simp only [hrs] at h; exact Except.noConfusion h
      | ok q =>
        obtain ⟨st2, reps2⟩ := q
        simp only [hrs] at h
        injection h with h1
        injection h1 with h2 h3
        subst h2
        exact ih st1 reps2 hrs (processRepo_inv cfg env st n st1 rep hr hi)

theorem mem_tallyInsert (x a : String × Nat) (l : List (String × Nat)) :
    x ∈ tallyInsert a l ↔ x = a ∨ x ∈ l := by
  induction l with
  | nil => simp [tallyInsert]
  | cons y ys ih =>
    unfold tallyInsert
    split
    · simp only [List.mem_cons, ih]
      tauto
    · simp only [List.mem_cons]

theorem pairwise_tallyInsert (a : String × Nat) (l : List (String × Nat))
    (h : l.Pairwise descByCount) :
    (tallyInsert a l).Pairwise descByCount := by
  induction l with
  | nil => simp [tallyInsert]
  | cons y ys ih =>
    rw [List.pairwise_cons] at h
    obtain ⟨hy, hys⟩ := h
    unfold tallyInsert
    split
    · rename_i hlt
      rw [List.pairwise_cons]
      refine ⟨fun x hx => ?_, ih hys⟩
      rcases (mem_tallyInsert x a ys).1 hx with rfl | hmem
      · exact Nat.le_of_lt hlt
      · exact hy x hmem
    · rename_i hge
      rw [List.pairwise_cons]
      refine ⟨fun x hx => ?_, ?_⟩
      · rcases List.mem_cons.1 hx with rfl | hmem
        · exact Nat.le_of_not_lt hge
        · exact Nat.le_trans (hy x hmem) (Nat.le_of_not_lt hge)
      · rw [List.pairwise_cons]
        exact ⟨hy, hys⟩

theorem perm_tallyInsert (a : String × Nat) (l : List (String × Nat)) :
    (tallyInsert a l).Perm (a :: l) := by
  induction l with
  | nil => exact List.Perm.refl _
  | cons y ys ih =>
    unfold tallyInsert
    split
    · exact (ih.cons y).trans (List.Perm.swap a y ys)
    · exact List.Perm.refl _

theorem sortedTally_pairwise (l : List (String × Nat)) :
    (sortedTally l).Pairwise descByCount := by
  induction l with
  | nil => simp [sortedTally]
  | cons a ys ih => exact pairwise_tallyInsert a (sortedTally ys) ih

theorem sortedTally_perm (l : List (String × Nat)) :
    (sortedTally l).Perm l := by
  induction l with
  | nil => exact List.Perm.refl _
  | cons a ys ih => exact (perm_tallyInsert a (sortedTally ys)).trans (ih.cons a)

theorem filter_tallyInsert (c : Nat) (a : String × Nat)
    (l : List (String × Nat)) :
    (tallyInsert a l).filter (countIs c) = ((a :: l).filter (countIs c)) := by
  induction l with
  | nil => rfl
  | cons y ys ih =>
    unfold tallyInsert
    split
    · rename_i hlt
      simp only [List.filter_cons, countIs] at ih ⊢
      by_cases ha : a.2 = c <;> by_cases hyc : y.2 = c
      · omega
      all_goals simp [ha, hyc, ih]
    · rfl

theorem filter_sortedTally (c : Nat) (l : List (String × Nat)) :
    (sortedTally l).filter (countIs c) = l.filter (countIs c) := by
  induction l with
  | nil => rfl
  | cons a ys ih =>
    have h := filter_tallyInsert c a (sortedTally ys)
    simp only [sortedTally, h, List.filter_cons, ih]

theorem takeWhile_append_all (p : Char → Bool) (xs ys : List Char)
    (h : ∀ c ∈ xs, p c = true) :
    (xs ++ ys).takeWhile p = xs ++ ys.takeWhile p := by
  induction xs with
  | nil => simp
  | cons x xs ih =>
    have hx : p x = true := h x (List.mem_cons_self x xs)
    simp only [List.cons_append, List.takeWhile_cons, hx, if_true]
    rw [ih (fun c hc => h c (List.mem_cons_of_mem x hc))]

theorem dropWhile_append_all (p : Char → Bool) (xs ys : List Char)
    (h : ∀ c ∈ xs, p c = true) :
    (xs ++ ys).dropWhile p = ys.dropWhile p := by
  induction xs with
  | nil => simp
  | cons x xs ih =>
    have hx : p x = true := h x (List.mem_cons_self x xs)
    simp only [List.cons_append, List.dropWhile_cons, hx, if_true]
    exact ih (fun c hc => h c (List.mem_cons_of_mem x hc))

theorem matchTicketIdAt_eq (ls ds rest : List Char)
    (hls : ∀ c ∈ ls, isTicketLetter c = true) (hls0 : ls ≠ [])
    (hds : ∀ c ∈ ds, isTicketDigit c = true) (hds0 : ds ≠ [])
    (hrest : rest.takeWhile isTicketDigit = []) :
    matchTicketIdAt (ls ++ '-' :: (ds ++ rest)) = some (ls ++ '-' :: ds) := by
  have hdash : isTicketLetter '-' = false := rfl
  have h1 : (ls ++ '-' :: (ds ++ rest)).takeWhile isTicketLetter = ls := by
    rw [takeWhile_append_all _ _ _ hls]
    simp [List.takeWhile_cons, hdash]
  have h2 : (ls ++ '-' :: (ds ++ rest)).dropWhile isTicketLetter
      = '-' :: (ds ++ rest) := by
    rw [dropWhile_append_all _ _ _ hls]
    simp [List.dropWhile_cons, hdash]
  have h3 : (ds ++ rest).takeWhile isTicketDigit = ds := by
    rw [takeWhile_append_all _ _ _ hds, hrest, List.append_nil]
  unfold matchTicketIdAt
  simp only [h1, h2, h3]
  have hlsE : ls.isEmpty = false := by
    cases ls with
    | nil => exact absurd rfl hls0
    | cons c cs => rfl
  have hdsE : ds.isEmpty = false := by
    cases ds with
    | nil => exact absurd rfl hds0
    | cons c cs => rfl
  simp [hlsE, hdsE]

theorem searchTicket_not_contained (cs : List Char)
    (h : pyStrIn "feature/".toList cs = false) :
    searchTicket cs = none := by
  induction cs with
  | nil => rfl
  | cons c t ih =>
    unfold pyStrIn at h
    rw [Bool.or_eq_false_iff] at h
    unfold searchTicket
    simp only [h.1, Bool.false_eq_true, if_false]
    exact ih h.2

theorem searchTicket_at_feature (tail : List Char) (t : List Char)
    (h : matchTicketIdAt tail = some t) :
    searchTicket ("feature/".toList ++ tail) = some t := by
  have hf : "feature/".toList = ['f', 'e', 'a', 't', 'u', 'r', 'e', '/'] := rfl
  rw [hf]
  simp only [List.cons_append, List.nil_append]
  unfold searchTicket
  rw [hf]
  have hpre : List.isPrefixOf ['f', 'e', 'a', 't', 'u', 'r', 'e', '/']
      ('f' :: 'e' :: 'a' :: 't' :: 'u' :: 'r' :: 'e' :: '/' :: tail) = true := by
    simp [List.isPrefixOf]
  simp only [hpre, if_true]
  simp only [List.drop_succ_cons, List.drop_zero]
  rw [h]

/-! The claims. -/

/-- **C1** — The claim says a repository without a `develop` branch falls
back to `master` and its branches are still evaluated.  In the code
(lines 114-121) the `except` block that performs the fallback ends in
`continue`, so any repository lacking `develop` is skipped outright even
when `master` exists: its stale branch is never reported (first conjunct),
whereas the identical repository with a `develop` branch yields that stale
branch (second conjunct). -/
theorem repo_without_develop_is_skipped :
    checkStaleBranches .defaults ["r"] envNoDevelop
      = .ok { total := 0, authorCount := [], generalReport := [] }
    ∧ checkStaleBranches .defaults ["r"] envWithDevelop = .ok resWithDevelop :=
  ⟨by decide, by decide⟩

/-- **C2** — The claim says a failed ticket lookup never protects a branch
and never aborts the run.  The code never rebinds `issue` on the `JIRAError`
path (lines 145-148) and reads it at line 150: if the very first lookup
fails the local is unbound and the run crashes with a `NameError` (first
conjunct); otherwise the previous branch's issue leaks in, and when that
stale issue has an open status it wrongly protects the branch whose lookup
failed — `feature/BBB-2` is behind yet the run reports zero stale branches
(second conjunct). -/
theorem ticket_lookup_failure_crashes_or_misprotects :
    checkStaleBranches .defaults ["r"] envTicketLookupFails
      = .error .nameError
    ∧ checkStaleBranches .defaults ["r"] envStaleIssueLeak
      = .ok { total := 0, authorCount := [], generalReport := [] } :=
  ⟨by decide, by decide⟩

/-- **C3** — The claim says a failing divergence comparison is logged, the
branch is skipped and the batch continues.  The `except` block at
lines 132-134 only logs — there is no `continue` — and line 136 then reads
`comparison`: if the very first comparison fails the local is unbound and
the run crashes with a `NameError` (first conjunct); otherwise the previous
branch's comparison leaks in, and `feature/b` (whose own comparison raised)
is *included* in the report with `feature/old`'s comparison data instead of
being skipped (second conjunct, total 2). -/
theorem compare_failure_crashes_or_reuses_comparison :
    checkStaleBranches .defaults ["r"] envCompareFails = .error .nameError
    ∧ checkStaleBranches .defaults ["r"] envStaleComparisonLeak
      = .ok resStaleComparison :=
  ⟨by decide, by decide⟩

/-- **C4** — For every candidate branch with a non-zero behind-count whose
extracted ticket resolves to a status outside the completion set (as tested
by line 150), the branch is excluded from the stale list: `processBranch`
returns no stale entry and leaves the author tally and the total untouched,
only the two locals `comparison` and `issue` are updated. -/
theorem openTicket_protects (cfg : CompletionCfg) (env : Env) (mb : String)
    (repo : RepoData) (st : LoopState) (b : BranchInfo) (c : Comparison)
    (t : String) (iss : Issue)
    (hcand : isCandidateBranch b.name = true)
    (hc : repo.compare mb b.name = .ok c)
    (hnz : c.behindBy ≠ 0)
    (ht : extractTicket b.name = some t)
    (hj : env.jiraIssue t = .ok iss)
    (hs : statusInCompletion cfg iss.statusName = false) :
    processBranch cfg env mb repo st b =
      .ok ({ st with comparisonVar := some c, issueVar := some iss }, none) := by
  unfold processBranch ticketGate
  simp only [hcand, hc, ht, hj, hs, if_true, hnz, if_neg, Bool.false_eq_true,
    if_false]

/-- Witness for `openTicket_protects`: branch `feature/ABC-1`, 2 behind,
ticket status `In Progress` with the default completion set. -/
theorem openTicket_protects_witness :
    processBranch .defaults envProtect "develop" repoProtect initState
      { name := "feature/ABC-1", authorLogin := some "a" } =
      .ok ({ initState with
              comparisonVar := some { behindBy := 2, status := "behind" },
              issueVar := some { statusName := "In Progress" } }, none) :=
  openTicket_protects .defaults envProtect "develop" repoProtect initState
    { name := "feature/ABC-1", authorLogin := some "a" }
    { behindBy := 2, status := "behind" } "ABC-1" { statusName := "In Progress" }
    (by decide) (by decide) (by decide) (by decide) (by decide) (by decide)

/-- **C5** — A branch whose comparison against the main integration branch
succeeds with behind-count 0 is `continue`d over at lines 136-138: whatever
`processBranch` returns for it carries no stale entry, and the author tally
and total are unchanged. -/
theorem zeroBehind_excluded (cfg : CompletionCfg) (env : Env) (mb : String)
    (repo : RepoData) (st : LoopState) (b : BranchInfo) (c : Comparison)
    (st' : LoopState) (oe : Option StaleEntry)
    (hc : repo.compare mb b.name = .ok c)
    (hz : c.behindBy = 0)
    (h : processBranch cfg env mb repo st b = .ok (st', oe)) :
    oe = none ∧ st'.authorCount = st.authorCount ∧ st'.total = st.total := by
  unfold processBranch at h
  by_cases hcand : isCandidateBranch b.name = true
  · simp only [hcand, if_true, hc, hz, if_pos] at h
    injection h with h1
    injection h1 with h2 h3
    subst h2
    exact ⟨h3.symm, rfl, rfl⟩
  · simp only [hcand, Bool.false_eq_true, if_false] at h
    injection h with h1
    injection h1 with h2 h3
    subst h2
    exact ⟨h3.symm, rfl, rfl⟩

/-- Witness for `zeroBehind_excluded`: `feature/done` compares 0 behind and
produces no entry and no count. -/
theorem zeroBehind_excluded_witness :
    (none : Option StaleEntry) = none
    ∧ ({ initState with
          comparisonVar := some { behindBy := 0, status := "ahead" } }
        : LoopState).authorCount = initState.authorCount
    ∧ ({ initState with
          comparisonVar := some { behindBy := 0, status := "ahead" } }
        : LoopState).total = initState.total :=
  zeroBehind_excluded .defaults envUpToDate "develop" repoUpToDate initState
    { name := "feature/done", authorLogin := some "a" }
    { behindBy := 0, status := "ahead" }
    { initState with comparisonVar := some { behindBy := 0, status := "ahead" } }
    none (by decide) (by decide) (by decide)

/-- **C6 counterexample** — The claim says a hotfix-prefixed branch
containing a ticket id yields a ticket reference; the regex at line 142
only ever matches the literal `feature/`, so extraction yields nothing for
`hotfix/ABC-123`. -/
theorem hotfix_branch_yields_no_ticket :
    extractTicket "hotfix/ABC-123" = none := by decide

/-- **C6 (amended)** — A ticket reference is extracted by searching the
branch name for the case-sensitive literal `feature/` followed by one or
more ASCII letters (either case), a hyphen, and one or more digits; the
matched id is uppercased.  A branch name not containing the literal
`feature/` — in particular any hotfix-prefixed name without an embedded
`feature/` — yields no ticket reference. -/
theorem extractTicket_feature_only (ls ds rest : List Char) (name : String)
    (hls : ∀ c ∈ ls, isTicketLetter c = true) (hls0 : ls ≠ [])
    (hds : ∀ c ∈ ds, isTicketDigit c = true) (hds0 : ds ≠ [])
    (hrest : rest.takeWhile isTicketDigit = [])
    (hname : pyStrIn "feature/".toList name.toList = false) :
    extractTicket (String.mk ("feature/".toList ++ (ls ++ '-' :: (ds ++ rest))))
      = some (String.mk ((ls ++ '-' :: ds).map Char.toUpper))
    ∧ extractTicket name = none := by
  constructor
  · unfold extractTicket
    have htl : (String.mk ("feature/".toList ++ (ls ++ '-' :: (ds ++ rest)))).toList
        = "feature/".toList ++ (ls ++ '-' :: (ds ++ rest)) := rfl
    rw [htl, searchTicket_at_feature _ _
      (matchTicketIdAt_eq ls ds rest hls hls0 hds hds0 hrest)]
    rfl
  · unfold extractTicket
    rw [searchTicket_not_contained _ hname]
    rfl

/-- Witness for `extractTicket_feature_only`: `feature/abc-42-x` yields
`ABC-42`, while `hotfix/ABC-123` yields nothing. -/
theorem extractTicket_feature_only_witness :
    extractTicket (String.mk ("feature/".toList
        ++ (['a', 'b', 'c'] ++ '-' :: (['4', '2'] ++ ['-', 'x']))))
      = some (String.mk ((['a', 'b', 'c'] ++ '-' :: ['4', '2']).map Char.toUpper))
    ∧ extractTicket "hotfix/ABC-123" = none :=
  extractTicket_feature_only ['a', 'b', 'c'] ['4', '2'] ['-', 'x']
    "hotfix/ABC-123"
    (by decide) (by decide) (by decide) (by decide) (by decide) (by decide)

/-- **C7** — The claim says the configured comma-separated value is treated
as a set of whole status labels.  Line 80 stores the raw string without
splitting it, so the membership test at line 150 is Python substring
containment: with the configured value `"Resolved,Closed"` the status
`"solved"` tests as a completion status (first conjunct) although it is not
an element of the whole-label set the spec describes (second conjunct).
The default path (key absent or empty) does use the two canonical labels
(remaining conjuncts). -/
theorem configured_membership_is_substring :
    statusInCompletion (.configured "Resolved,Closed") "solved" = true
    ∧ (specCompletionStatusSet "Resolved,Closed").contains "solved" = false
    ∧ completionCfgOf none = .defaults
    ∧ completionCfgOf (some "") = .defaults
    ∧ statusInCompletion .defaults "solved" = false :=
  ⟨by decide, by decide, by decide, by decide, by decide⟩

/-- **C8** — The author tally rendered at lines 166-168 is the stable
descending-by-count sort of the encounter-ordered `author_count`: it is
pairwise descending, for every count value the entries carrying that count
appear exactly in their original (first-encounter) order, and it is a
permutation of the tally. -/
theorem tally_sorted_desc_stable (cfg : CompletionCfg) (names : List String)
    (env : Env) (res : RunResult) (c : Nat)
    (h : checkStaleBranches cfg names env = .ok res) :
    (sortedTally res.authorCount).Pairwise descByCount
    ∧ (sortedTally res.authorCount).filter (countIs c)
        = res.authorCount.filter (countIs c)
    ∧ (sortedTally res.authorCount).Perm res.authorCount :=
  ⟨sortedTally_pairwise _, filter_sortedTally c _, sortedTally_perm _⟩

/-- Witness for `tally_sorted_desc_stable`: the `envTally` run gives the
tally `[(alice, 2), (bob, 1), (carol, 1)]`; bob and carol tie at count 1
and keep their encounter order. -/
theorem tally_sorted_desc_stable_witness :
    (sortedTally resTally.authorCount).Pairwise descByCount
    ∧ (sortedTally resTally.authorCount).filter (countIs 1)
        = resTally.authorCount.filter (countIs 1)
    ∧ (sortedTally resTally.authorCount).Perm resTally.authorCount :=
  tally_sorted_desc_stable .defaults ["r"] envTally resTally 1 (by decide)

/-- **C9** — Whenever the scan completes, the per-author counts of the
aggregate sum to `total_stale_branches`: both are incremented together at
lines 154-161, starting from an empty tally and zero. -/
theorem author_counts_sum_to_total (cfg : CompletionCfg)
    (names : List String) (env : Env) (res : RunResult)
    (h : checkStaleBranches cfg names env = .ok res) :
    sumCounts res.authorCount = res.total := by
  unfold checkStaleBranches at h
  cases hr : processRepos cfg env initState names with
  | error e => simp only [hr] at h; exact Except.noConfusion h
  | ok p =>
    obtain ⟨st, reps⟩ := p
    simp only [hr] at h
    injection h with h1
    subst h1
    exact processRepos_inv cfg env names initState st reps hr rfl

/-- Witness for `author_counts_sum_to_total`: in the `envTally` run,
2 + 1 + 1 = 4. -/
theorem author_counts_sum_to_total_witness :
    sumCounts resTally.authorCount = resTally.total :=
  author_counts_sum_to_total .defaults ["r"] envTally resTally (by decide)

/-- **C10** — The two Slack requests live inside
`if total_stale_branches:` (lines 170-187): a completed scan that found
zero stale branches sends neither the overview nor the details payload. -/
theorem zero_stale_sends_no_payloads (cfg : CompletionCfg)
    (names : List String) (env : Env) (res : RunResult)
    (h : checkStaleBranches cfg names env = .ok res)
    (h0 : res.total = 0) :
    sentPayloads res = [] := by
  simp [sentPayloads, h0]

/-- Witness for `zero_stale_sends_no_payloads`: a run over an unlocatable
repository completes with zero stale branches and sends nothing. -/
theorem zero_stale_sends_no_payloads_witness :
    sentPayloads { total := 0, authorCount := [], generalReport := [] } = [] :=
  zero_stale_sends_no_payloads .defaults ["missing"]
    { getRepo := fun _ => none, jiraIssue := fun _ => .error () }
    { total := 0, authorCount := [], generalReport := [] }
    (by decide) (by decide)
